import Mathlib

/-!
Verification of the nginx-gen tool (src/nginx_config.py) against its
natural-language specification.

The Python program is shallowly embedded:
  * create_nginx_config is a pure function on strings; the template is
    reproduced byte-for-byte (braces are written with \x7b / \x7d escapes).
  * the filesystem is an explicit association list from paths to nodes
    (directory, regular file with content, or symbolic link); paths are
    component lists together with an absolute-or-relative flag, abstracting
    the slash-separated path strings the Python code manipulates.
  * external processes are an oracle function from an argument vector to a
    process outcome; effectful functions return their traces explicitly.
-/

set_option maxRecDepth 4000

namespace NginxGen

/-! ## Renderer: create_nginx_config (src/nginx_config.py lines 7-32) -/

/-- Template text before the server_name interpolation. -/
def seg1 : String := "server \x7b\n    listen 80;\n    server_name "

/-- Template text between the server_name and the first proxy_pass interpolation. -/
def seg2 : String := ";\n\n    location / \x7b\n        proxy_pass "

/-- Template text between the first and the second proxy_pass interpolation. -/
def seg3 : String := ";\n        \n        # Essential headers\n        proxy_set_header Host $host;\n        proxy_set_header X-Real-IP $remote_addr;\n        proxy_set_header X-Forwarded-For $proxy_add_x_forwarded_for;\n        proxy_set_header X-Forwarded-Proto $scheme;\n\n        # Cache control for static assets\n        proxy_cache_use_stale error timeout http_500 http_502 http_503 http_504;\n        proxy_cache_bypass $http_upgrade;\n    \x7d\n\n    # Static file handling\n    location /_next/static/ \x7b\n        proxy_cache_valid 60m;\n        proxy_pass "

/-- Template text after the second proxy_pass interpolation. -/
def seg4 : String := ";\n    \x7d\n\x7d"

/-- Embedding of create_nginx_config: the Python f-string with the two
interpolation slots, rendered as string concatenation. -/
def create_nginx_config (server_name proxy_pass : String) : String :=
  seg1 ++ server_name ++ seg2 ++ proxy_pass ++ seg3 ++ proxy_pass ++ seg4

/-! ## Counting substring occurrences -/

/-- Number of positions of s at which the pattern p starts (occurrences may
overlap; for a nonempty pattern this is the usual substring-occurrence count). -/
def countOcc (p : List Char) : List Char → Nat
  | [] => 0
  | c :: rest => (if p.isPrefixOf (c :: rest) then 1 else 0) + countOcc p rest

/-- seg1 without its trailing space. -/
def seg1head : String := "server \x7b\n    listen 80;\n    server_name"

/-- seg2 without its leading semicolon and trailing space. -/
def seg2mid : String := "\n\n    location / \x7b\n        proxy_pass"

/-- seg3 without its leading semicolon and trailing space. -/
def seg3mid : String := "\n        \n        # Essential headers\n        proxy_set_header Host $host;\n        proxy_set_header X-Real-IP $remote_addr;\n        proxy_set_header X-Forwarded-For $proxy_add_x_forwarded_for;\n        proxy_set_header X-Forwarded-Proto $scheme;\n\n        # Cache control for static assets\n        proxy_cache_use_stale error timeout http_500 http_502 http_503 http_504;\n        proxy_cache_bypass $http_upgrade;\n    \x7d\n\n    # Static file handling\n    location /_next/static/ \x7b\n        proxy_cache_valid 60m;\n        proxy_pass"

/-- seg4 without its leading semicolon. -/
def seg4tail : String := "\n    \x7d\n\x7d"

/-! ## Filesystem model for save_config (src/nginx_config.py lines 49-71) -/

/-- A filesystem path: an absolute-or-relative flag plus the list of path
components, abstracting the slash-separated strings the Python code builds
with os.path.join. -/
structure FsPath where
  absolute : Bool
  parts : List String
deriving DecidableEq, Repr

/-- A filesystem node: directory, regular file with its content, or symbolic
link storing a target path. -/
inductive Node where
  | dir : Node
  | file (content : String) : Node
  | link (target : FsPath) : Node
deriving DecidableEq, Repr

/-- Filesystem state: an association list from paths to nodes (first match
wins; the operations keep keys unique). -/
abbrev FS := List (FsPath × Node)

/-- Look up the node recorded at a path. -/
def fsFind (fs : FS) (p : FsPath) : Option Node :=
  match fs with
  | [] => none
  | (q, n) :: rest => if q = p then some n else fsFind rest p

/-- Delete the entry at a path. -/
def removeNode : FS → FsPath → FS
  | [], _ => []
  | (k, n) :: rest, p => if k = p then removeNode rest p else (k, n) :: removeNode rest p

/-- Record a node at a path, replacing any previous entry. -/
def setNode (fs : FS) (p : FsPath) (n : Node) : FS :=
  (p, n) :: removeNode fs p

/-- Follow symbolic links at a path down to a non-link node, fuel-bounded as
the operating system bounds symlink chains; none for a missing final target
or an exhausted chain. -/
def resolveNode (fs : FS) : Nat → FsPath → Option Node
  | 0, _ => none
  | fuel + 1, p =>
    match fsFind fs p with
    | some (Node.link t) => resolveNode fs fuel t
    | r => r

/-- Model of os.path.exists: follows symbolic links, so it is false on a
dangling link. -/
def pathExists (fs : FS) (p : FsPath) : Bool :=
  (resolveNode fs 40 p).isSome

/-- The path a chain of symbolic links starting at p finally designates. -/
def resolveLink (fs : FS) : Nat → FsPath → Option FsPath
  | 0, _ => none
  | fuel + 1, p =>
    match fsFind fs p with
    | some (Node.link t) => resolveLink fs fuel t
    | _ => some p

/-- The parent directory of a path. -/
def parentPath (p : FsPath) : FsPath :=
  ⟨p.absolute, p.parts.dropLast⟩

/-- Outcome of one filesystem operation. The Python functions run inside
try/except, so a failing operation reports the state mutated so far. -/
inductive Res where
  | ok (fs : FS)
  | err (msg : String) (fs : FS)
deriving DecidableEq, Repr

/-- Model of one os.mkdir step of os.makedirs(..., exist_ok=True): succeed
if the path already resolves to a directory, create a directory if nothing
occupies the path, and fail if a non-directory entry occupies it. -/
def mkdirOk (fs : FS) (p : FsPath) : Res :=
  match resolveNode fs 40 p with
  | some Node.dir => Res.ok fs
  | some _ => Res.err "FileExistsError" fs
  | none =>
    match fsFind fs p with
    | some _ => Res.err "FileExistsError" fs
    | none => Res.ok (setNode fs p Node.dir)

/-- Model of os.makedirs(path, exist_ok=True): create every missing prefix
of the path as a directory; acc is the prefix already processed. -/
def makedirsAux (fs : FS) (ab : Bool) (acc : List String) : List String → Res
  | [] => Res.ok fs
  | c :: rest =>
    match mkdirOk fs ⟨ab, acc ++ [c]⟩ with
    | Res.err e fs' => Res.err e fs'
    | Res.ok fs' => makedirsAux fs' ab (acc ++ [c]) rest

/-- Model of os.makedirs(path, exist_ok=True). -/
def makedirs (fs : FS) (p : FsPath) : Res :=
  makedirsAux fs p.absolute [] p.parts

/-- Model of open(path, "w") followed by write: writes through a symbolic
link at the path, truncating or creating the final target; fails on a
directory or when the parent directory of the target is missing. -/
def writeFile (fs : FS) (p : FsPath) (content : String) : Res :=
  match resolveLink fs 40 p with
  | none => Res.err "ELOOP" fs
  | some q =>
    match fsFind fs q with
    | some Node.dir => Res.err "IsADirectoryError" fs
    | _ =>
      match resolveNode fs 40 (parentPath q) with
      | some Node.dir => Res.ok (setNode fs q (Node.file content))
      | _ => Res.err "FileNotFoundError" fs

/-- Model of os.remove: deletes the entry at the path itself (a symbolic
link is removed, not followed); fails on a directory or a missing entry. -/
def removeFile (fs : FS) (p : FsPath) : Res :=
  match fsFind fs p with
  | none => Res.err "FileNotFoundError" fs
  | some Node.dir => Res.err "IsADirectoryError" fs
  | some _ => Res.ok (removeNode fs p)

/-- Model of os.symlink(target, p): fails if any entry (even a dangling
link) already occupies p, or if the parent directory is missing; otherwise
records a link at p storing the target path verbatim. -/
def symlinkOp (fs : FS) (target p : FsPath) : Res :=
  match fsFind fs p with
  | some _ => Res.err "FileExistsError" fs
  | none =>
    match resolveNode fs 40 (parentPath p) with
    | some Node.dir => Res.ok (setNode fs p (Node.link target))
    | _ => Res.err "FileNotFoundError" fs

/-- Render a path back to the string os.path.join would have produced. -/
def pathStr (p : FsPath) : String :=
  (if p.absolute then "/" else "") ++ String.intercalate "/" p.parts

/-- os.path.join(sites_path, "sites-available"). -/
def availablePath (base : FsPath) : FsPath :=
  ⟨base.absolute, base.parts ++ ["sites-available"]⟩

/-- os.path.join(sites_path, "sites-enabled"). -/
def enabledPath (base : FsPath) : FsPath :=
  ⟨base.absolute, base.parts ++ ["sites-enabled"]⟩

/-- os.path.join(available_path, filename); the filename is taken to be a
single path component. -/
def configPath (base : FsPath) (filename : String) : FsPath :=
  ⟨(availablePath base).absolute, (availablePath base).parts ++ [filename]⟩

/-- os.path.join(enabled_path, filename). -/
def symlinkPath (base : FsPath) (filename : String) : FsPath :=
  ⟨(enabledPath base).absolute, (enabledPath base).parts ++ [filename]⟩

/-- Embedding of save_config: create the two directories, write the
configuration file, drop an existing entry at the enabled path if
os.path.exists reports one, then create the symlink. Failure at any step
returns false with the error text and the state mutated so far. -/
def save_config (content filename : String) (sites_path : FsPath) (fs : FS) :
    (Bool × String) × FS :=
  match makedirs fs (availablePath sites_path) with
  | Res.err e fs1 => ((false, e), fs1)
  | Res.ok fs1 =>
    match makedirs fs1 (enabledPath sites_path) with
    | Res.err e fs2 => ((false, e), fs2)
    | Res.ok fs2 =>
      match writeFile fs2 (configPath sites_path filename) content with
      | Res.err e fs3 => ((false, e), fs3)
      | Res.ok fs3 =>
        match
          (if pathExists fs3 (symlinkPath sites_path filename) then
            removeFile fs3 (symlinkPath sites_path filename)
          else Res.ok fs3) with
        | Res.err e fs4 => ((false, e), fs4)
        | Res.ok fs4 =>
          match symlinkOp fs4 (configPath sites_path filename)
              (symlinkPath sites_path filename) with
          | Res.err e fs5 => ((false, e), fs5)
          | Res.ok fs5 => ((true, pathStr (configPath sites_path filename)), fs5)

/-- Every nonempty prefix of the component list is either free or a
directory entry: the normal shape of a directory tree about to be extended. -/
def prefixesClean (fs : FS) (ab : Bool) (acc : List String) : List String → Bool
  | [] => true
  | c :: rest =>
    (match fsFind fs ⟨ab, acc ++ [c]⟩ with
      | none => true
      | some Node.dir => true
      | some _ => false) && prefixesClean fs ab (acc ++ [c]) rest

/-- Every nonempty prefix of the component list is a directory entry. -/
def dirsAt (fs : FS) (ab : Bool) (acc : List String) : List String → Bool
  | [] => true
  | c :: rest =>
    decide (fsFind fs ⟨ab, acc ++ [c]⟩ = some Node.dir) && dirsAt fs ab (acc ++ [c]) rest

/-- Model of os.path.abspath against a working directory (path normalization
is omitted; no claim exercises it): an absolute path is unchanged, a
relative one is joined onto the working directory. -/
def absPath (cwd : List String) (p : FsPath) : FsPath :=
  if p.absolute then p else ⟨true, cwd ++ p.parts⟩

/-- A state with the directory tree in place and a dangling symlink already
occupying /etc/nginx/sites-enabled/site.conf. -/
def fsDangling : FS :=
  [(⟨true, ["etc"]⟩, Node.dir), (⟨true, ["etc", "nginx"]⟩, Node.dir),
   (⟨true, ["etc", "nginx", "sites-available"]⟩, Node.dir),
   (⟨true, ["etc", "nginx", "sites-enabled"]⟩, Node.dir),
   (⟨true, ["etc", "nginx", "sites-enabled", "site.conf"]⟩,
     Node.link ⟨true, ["nowhere"]⟩)]

/-- The state carried by an operation outcome. -/
def Res.state : Res → FS
  | Res.ok fs => fs
  | Res.err _ fs => fs

/-! ## Process model: run_command and test_and_reload_nginx (lines 34-47, 73-85) -/

/-- Outcome of launching a child process, as reported by the system. -/
inductive ProcResult where
  | completed (exitCode : Nat) (out err : String) : ProcResult
  | launchFailure (msg : String) : ProcResult
deriving DecidableEq, Repr

/-- Python str.split() with no separator: split on runs of whitespace with
no empty words; cur accumulates the current word reversed. -/
def pySplitGo (cur : List Char) : List Char → List (List Char)
  | [] => if cur = [] then [] else [cur.reverse]
  | c :: rest =>
    if c.isWhitespace then
      if cur = [] then pySplitGo [] rest
      else cur.reverse :: pySplitGo [] rest
    else pySplitGo (c :: cur) rest

/-- Model of command.split() in run_command. -/
def pySplit (s : String) : List String :=
  (pySplitGo [] s.data).map fun l => String.mk l

/-- Embedding of run_command: split the command on whitespace and hand the
argument vector to the process oracle with no shell involved; check=True
turns a non-zero exit into CalledProcessError, caught to return
(False, stderr); any other exception — inability to launch, or the
IndexError subprocess raises on an empty argument vector — is caught to
return (False, its description). -/
def run_command (proc : List String → ProcResult) (command : String) : Bool × String :=
  let argv := pySplit command
  if argv = [] then (false, "list index out of range")
  else
    match proc argv with
    | ProcResult.completed code out err => if code = 0 then (true, out) else (false, err)
    | ProcResult.launchFailure msg => (false, msg)

/-- Embedding of test_and_reload_nginx (lines 73-85), additionally returning
the list of command lines handed to run_command, in order. -/
def test_and_reload_nginx (proc : List String → ProcResult) :
    (Bool × String) × List String :=
  let r1 := run_command proc "nginx -t"
  if r1.1 = false then
    ((false, "Nginx configuration test failed:\n" ++ r1.2), ["nginx -t"])
  else
    let r2 := run_command proc "systemctl reload nginx"
    if r2.1 = false then
      ((false, "Nginx reload failed:\n" ++ r2.2), ["nginx -t", "systemctl reload nginx"])
    else
      ((true, "Nginx configuration tested and reloaded successfully!"),
        ["nginx -t", "systemctl reload nginx"])

/-! ## CLI orchestrator: main (lines 87-154) -/

/-- The parsed argument record (argparse destination fields). -/
structure Args where
  server_name : String
  proxy_pass : String
  output : String
  nginx_path : FsPath
  dry_run : Bool
  skip_reload : Bool
deriving DecidableEq, Repr

/-- Observable outcome of one whole program run: process exit status,
printed lines, final filesystem, command lines handed to run_command. -/
structure RunOutcome where
  exitCode : Nat
  printed : List String
  fs : FS
  invoked : List String
deriving DecidableEq, Repr

/-- Split a path string on slashes into nonempty components. -/
def splitSlashGo (cur : List Char) : List Char → List String
  | [] => if cur = [] then [] else [String.mk cur.reverse]
  | c :: rest =>
    if c = '/' then
      if cur = [] then splitSlashGo [] rest
      else String.mk cur.reverse :: splitSlashGo [] rest
    else splitSlashGo (c :: cur) rest

/-- Interpret a path string in the path model: absolute iff it starts with
a slash, components the nonempty slash-separated segments. -/
def pathOfString (s : String) : FsPath :=
  ⟨decide (s.data.head? = some '/'), splitSlashGo [] s.data⟩

/-- Embedding of main's body after parse_args. Every branch produces exit
status 0: the Python function just returns and the interpreter exits 0.
Printed lines and the subprocess trace are captured explicitly. -/
def main (args : Args) (fs : FS) (proc : List String → ProcResult) : RunOutcome :=
  let config_content := create_nginx_config args.server_name args.proxy_pass
  if args.dry_run then
    { exitCode := 0,
      printed := ["Generated configuration:", String.mk (List.replicate 50 '-'),
        config_content],
      fs := fs, invoked := [] }
  else
    match save_config config_content args.output args.nginx_path fs with
    | ((true, result), fs') =>
      if args.skip_reload then
        { exitCode := 0,
          printed := ["Configuration successfully created at: " ++ result],
          fs := fs', invoked := [] }
      else
        match test_and_reload_nginx proc with
        | ((true, _), trace) =>
          { exitCode := 0,
            printed := ["Configuration successfully created at: " ++ result,
              "\nTesting and reloading Nginx configuration...",
              "✓ Configuration test passed", "✓ Nginx reloaded successfully"],
            fs := fs', invoked := trace }
        | ((false, message), trace) =>
          { exitCode := 0,
            printed := ["Configuration successfully created at: " ++ result,
              "\nTesting and reloading Nginx configuration...",
              "✗ Error: " ++ message,
              "\nPlease fix the configuration and run:", "1. nginx -t",
              "2. systemctl reload nginx"],
            fs := fs', invoked := trace }
    | ((false, result), fs') =>
      { exitCode := 0,
        printed := ["Error creating configuration: " ++ result],
        fs := fs', invoked := [] }

/-- Partially accumulated option values while scanning the argument list,
with the argparse defaults. -/
structure PartialArgs where
  server_name : Option String := none
  proxy_pass : Option String := none
  output : String := "site.conf"
  nginx_path : String := "/etc/nginx"
  dry_run : Bool := false
  skip_reload : Bool := false
deriving DecidableEq, Repr

/-- Modelled from argparse semantics for the parser built in main (lines
88-122): scan the tokens for the six declared options; an unknown token or
an option missing its value is a parse error. -/
def parseLoop (acc : PartialArgs) : List String → Option PartialArgs
  | [] => some acc
  | "--server-name" :: v :: rest => parseLoop { acc with server_name := some v } rest
  | "--proxy-pass" :: v :: rest => parseLoop { acc with proxy_pass := some v } rest
  | "--output" :: v :: rest => parseLoop { acc with output := v } rest
  | "--nginx-path" :: v :: rest => parseLoop { acc with nginx_path := v } rest
  | "--dry-run" :: rest => parseLoop { acc with dry_run := true } rest
  | "--skip-reload" :: rest => parseLoop { acc with skip_reload := true } rest
  | _ => none

/-- Modelled from argparse semantics: after scanning, both required options
must be present, else argparse errors (and exits with status 2). -/
def parseArgs (argv : List String) : Option Args :=
  match parseLoop {} argv with
  | none => none
  | some acc =>
    match acc.server_name, acc.proxy_pass with
    | some sn, some pp =>
      some { server_name := sn, proxy_pass := pp, output := acc.output,
             nginx_path := pathOfString acc.nginx_path, dry_run := acc.dry_run,
             skip_reload := acc.skip_reload }
    | _, _ => none

/-- Whole-program model: an argparse failure exits the process with status 2
before main's body runs; otherwise main runs and the process exits 0. -/
def programMain (argv : List String) (fs : FS) (proc : List String → ProcResult) :
    RunOutcome :=
  match parseArgs argv with
  | none => { exitCode := 2, printed := [], fs := fs, invoked := [] }
  | some args => main args fs proc

/-! ## Concrete states and oracles used by witnesses and counterexamples -/

/-- A process oracle on which every launch fails. -/
def procNone : List String → ProcResult :=
  fun _ => ProcResult.launchFailure "No such file or directory"

/-- A process oracle on which every command exits 1 with stderr boom. -/
def procFailTest : List String → ProcResult :=
  fun _ => ProcResult.completed 1 "" "boom"

/-- A process oracle on which every command exits 0 with stdout ok. -/
def procOkAll : List String → ProcResult :=
  fun _ => ProcResult.completed 0 "ok" ""

/-- The dry-run argument record from the specification example. -/
def argsDry : Args :=
  { server_name := "a.com", proxy_pass := "http://localhost:9000",
    output := "site.conf", nginx_path := pathOfString "/etc/nginx",
    dry_run := true, skip_reload := false }

/-- The dry-run command line from the specification example. -/
def argvDry : List String :=
  ["--dry-run", "--server-name", "a.com", "--proxy-pass", "http://localhost:9000"]

/-! ## C1 and C6: the renderer -/

/-- C1: for server_name "example.com" and proxy_pass "http://localhost:3002",
the rendered text contains the substring "server_name example.com;" and
contains "proxy_pass http://localhost:3002;" exactly twice. -/
theorem c1_render_example :
    0 < countOcc "server_name example.com;".data
        (create_nginx_config "example.com" "http://localhost:3002").data ∧
    countOcc "proxy_pass http://localhost:3002;".data
        (create_nginx_config "example.com" "http://localhost:3002").data = 2 := by
  constructor
  · decide
  · decide

/-- A pattern avoiding a character c is a prefix of a ++ c :: b exactly when it
is a prefix of a: an occurrence cannot reach across the c. -/
theorem isPrefixOf_append_cons (p : List Char) (c : Char) (hc : c ∉ p) (a b : List Char) :
    p.isPrefixOf (a ++ c :: b) = p.isPrefixOf a := by
  induction p generalizing a with
  | nil => cases a <;> simp [List.isPrefixOf]
  | cons q p' ih =>
    have hne : (q == c) = false := by
      refine beq_eq_false_iff_ne.mpr fun h => hc ?_
      rw [← h]
      exact List.mem_cons_self q p'
    have hcp' : c ∉ p' := fun h => hc (List.mem_cons_of_mem _ h)
    cases a with
    | nil => simp [List.isPrefixOf, hne]
    | cons x a' => simp [List.isPrefixOf, ih hcp']

/-- Occurrences of a nonempty pattern avoiding the character c split across
a ++ c :: b: none straddles the boundary marker c. -/
theorem countOcc_append_cons (p : List Char) (hp : p ≠ []) (c : Char) (hc : c ∉ p)
    (a b : List Char) : countOcc p (a ++ c :: b) = countOcc p a + countOcc p b := by
  induction a with
  | nil =>
    have h2 : p.isPrefixOf ([] : List Char) = false := by
      cases p with
      | nil => exact absurd rfl hp
      | cons q p' => rfl
    have h1 : p.isPrefixOf (c :: b) = false := by
      have := isPrefixOf_append_cons p c hc [] b
      simpa [h2] using this
    simp [countOcc, h1]
  | cons x a' ih =>
    have h1 : p.isPrefixOf (x :: (a' ++ c :: b)) = p.isPrefixOf (x :: a') :=
      isPrefixOf_append_cons p c hc (x :: a') b
    simp [countOcc, List.cons_append, h1, ih, Nat.add_assoc]

theorem seg1_split : seg1.data = seg1head.data ++ [' '] := by decide

theorem seg2_split : seg2.data = ';' :: (seg2mid.data ++ [' ']) := by decide

theorem seg3_split : seg3.data = ';' :: (seg3mid.data ++ [' ']) := by decide

theorem seg4_split : seg4.data = ';' :: seg4tail.data := by decide

/-- For a nonempty pattern containing neither a space nor a semicolon that
occurs in neither input, the occurrence count of the rendered text is the sum
of the occurrence counts of the four fixed template segments. -/
theorem countOcc_render (p : List Char) (hp : p ≠ []) (hsp : ' ' ∉ p) (hsemi : ';' ∉ p)
    (sn pp : String) (h1 : countOcc p sn.data = 0) (h2 : countOcc p pp.data = 0) :
    countOcc p (create_nginx_config sn pp).data =
      countOcc p seg1head.data + countOcc p seg2mid.data + countOcc p seg3mid.data +
        countOcc p seg4tail.data := by
  have e : (create_nginx_config sn pp).data =
      seg1head.data ++ ' ' :: (sn.data ++ ';' :: (seg2mid.data ++ ' ' :: (pp.data ++ ';' ::
        (seg3mid.data ++ ' ' :: (pp.data ++ ';' :: seg4tail.data))))) := by
    simp [create_nginx_config, seg1_split, seg2_split, seg3_split, seg4_split]
  rw [e, countOcc_append_cons p hp _ hsp, countOcc_append_cons p hp _ hsemi,
    countOcc_append_cons p hp _ hsp, countOcc_append_cons p hp _ hsemi,
    countOcc_append_cons p hp _ hsp, countOcc_append_cons p hp _ hsemi, h1, h2]
  omega

/-- C6 (amended): for every pair of input strings whatever, both inputs
appear verbatim (unescaped) in the output; and whenever neither the word
listen (respectively location) occurs in either input, the rendered text
contains exactly one listen directive (respectively exactly two location
blocks). -/
theorem c6_render_counts (sn pp : String) :
    (∃ u v, (create_nginx_config sn pp).data = u ++ sn.data ++ v) ∧
    (∃ u v, (create_nginx_config sn pp).data = u ++ pp.data ++ v) ∧
    (countOcc "listen".data sn.data = 0 → countOcc "listen".data pp.data = 0 →
      countOcc "listen".data (create_nginx_config sn pp).data = 1) ∧
    (countOcc "location".data sn.data = 0 → countOcc "location".data pp.data = 0 →
      countOcc "location".data (create_nginx_config sn pp).data = 2) := by
  refine ⟨?_, ?_, fun h1 h2 => ?_, fun h3 h4 => ?_⟩
  · exact ⟨seg1.data, (seg2 ++ pp ++ seg3 ++ pp ++ seg4).data,
      by simp [create_nginx_config]⟩
  · exact ⟨(seg1 ++ sn ++ seg2).data, (seg3 ++ pp ++ seg4).data,
      by simp [create_nginx_config]⟩
  · rw [countOcc_render "listen".data (by decide) (by decide) (by decide) sn pp h1 h2]
    decide
  · rw [countOcc_render "location".data (by decide) (by decide) (by decide) sn pp h3 h4]
    decide

/-- C6 witness: the verbatim-and-count statement evaluated at the concrete
pair from the specification example, with the count side conditions
discharged there. -/
theorem c6_render_counts_witness :
    (∃ u v, (create_nginx_config "example.com" "http://localhost:3002").data =
      u ++ "example.com".data ++ v) ∧
    (∃ u v, (create_nginx_config "example.com" "http://localhost:3002").data =
      u ++ "http://localhost:3002".data ++ v) ∧
    countOcc "listen".data
      (create_nginx_config "example.com" "http://localhost:3002").data = 1 ∧
    countOcc "location".data
      (create_nginx_config "example.com" "http://localhost:3002").data = 2 := by
  obtain ⟨h1, h2, h3, h4⟩ := c6_render_counts "example.com" "http://localhost:3002"
  exact ⟨h1, h2, h3 (by decide) (by decide), h4 (by decide) (by decide)⟩

/-- C6 counterexample: a server_name carrying an injected listen directive
makes the rendered text contain two listen directives, refuting the claim
that the output has exactly one listener directive for every input pair. -/
theorem c6_injection_counterexample :
    countOcc "listen".data
      (create_nginx_config "evil.com;\n    listen 8080" "http://localhost:3002").data = 2 ∧
    ¬ countOcc "listen".data
      (create_nginx_config "evil.com;\n    listen 8080" "http://localhost:3002").data = 1 := by
  decide

/-! ## Lemmas about the filesystem primitives -/

theorem fsFind_removeNode_ne (fs : FS) (p q : FsPath) (h : q ≠ p) :
    fsFind (removeNode fs p) q = fsFind fs q := by
  induction fs with
  | nil => rfl
  | cons e rest ih =>
    rcases e with ⟨k, m⟩
    by_cases hk : k = p
    · subst hk
      simp only [removeNode, if_pos rfl, fsFind, if_neg fun hq : k = q => h (hq ▸ rfl)]
      exact ih
    · simp only [removeNode, if_neg hk, fsFind]
      by_cases hq : k = q
      · simp [hq]
      · simp [hq, ih]

theorem fsFind_removeNode_self (fs : FS) (p : FsPath) :
    fsFind (removeNode fs p) p = none := by
  induction fs with
  | nil => rfl
  | cons e rest ih =>
    rcases e with ⟨k, m⟩
    by_cases hk : k = p
    · simp only [removeNode, if_pos hk]
      exact ih
    · simp only [removeNode, if_neg hk, fsFind, if_neg hk]
      exact ih

theorem fsFind_removeNode (fs : FS) (p q : FsPath) :
    fsFind (removeNode fs p) q = if q = p then none else fsFind fs q := by
  by_cases h : q = p
  · subst h; simp [fsFind_removeNode_self]
  · simp [h, fsFind_removeNode_ne fs p q h]

theorem fsFind_setNode (fs : FS) (p : FsPath) (n : Node) (q : FsPath) :
    fsFind (setNode fs p n) q = if q = p then some n else fsFind fs q := by
  by_cases h : q = p
  · subst h; simp [setNode, fsFind]
  · simp only [setNode, fsFind, if_neg fun hq : p = q => h hq.symm, if_neg h]
    exact fsFind_removeNode_ne fs p q h

theorem resolveNode_step (fs : FS) (fuel : Nat) (p : FsPath) :
    resolveNode fs (fuel + 1) p =
      match fsFind fs p with
      | some (Node.link t) => resolveNode fs fuel t
      | r => r := rfl

theorem resolveNode_of_dir (fs : FS) (fuel : Nat) (p : FsPath)
    (h : fsFind fs p = some Node.dir) : resolveNode fs (fuel + 1) p = some Node.dir := by
  rw [resolveNode_step, h]

theorem resolveNode_of_none (fs : FS) (fuel : Nat) (p : FsPath)
    (h : fsFind fs p = none) : resolveNode fs (fuel + 1) p = none := by
  rw [resolveNode_step, h]

theorem resolveNode_of_file (fs : FS) (fuel : Nat) (p : FsPath) (c : String)
    (h : fsFind fs p = some (Node.file c)) :
    resolveNode fs (fuel + 1) p = some (Node.file c) := by
  rw [resolveNode_step, h]

theorem resolveNode_of_link (fs : FS) (fuel : Nat) (p t : FsPath)
    (h : fsFind fs p = some (Node.link t)) :
    resolveNode fs (fuel + 1) p = resolveNode fs fuel t := by
  rw [resolveNode_step, h]

theorem forty_succ : (40 : Nat) = 39 + 1 := rfl

theorem mkdirOk_of_none (fs : FS) (p : FsPath) (h : fsFind fs p = none) :
    mkdirOk fs p = Res.ok (setNode fs p Node.dir) := by
  unfold mkdirOk
  rw [forty_succ, resolveNode_of_none fs 39 p h, h]

theorem mkdirOk_of_dir (fs : FS) (p : FsPath) (h : fsFind fs p = some Node.dir) :
    mkdirOk fs p = Res.ok fs := by
  unfold mkdirOk
  rw [forty_succ, resolveNode_of_dir fs 39 p h]

/-! ## Lemmas about makedirs -/

theorem prefixesClean_mono (fs fs' : FS) (ab : Bool)
    (hm : ∀ q, fsFind fs' q = fsFind fs q ∨ fsFind fs' q = some Node.dir) :
    ∀ (rest acc : List String), prefixesClean fs ab acc rest = true →
      prefixesClean fs' ab acc rest = true := by
  intro rest
  induction rest with
  | nil => intro acc _; rfl
  | cons c rest ih =>
    intro acc h
    simp only [prefixesClean, Bool.and_eq_true] at h ⊢
    refine ⟨?_, ih _ h.2⟩
    rcases hm ⟨ab, acc ++ [c]⟩ with he | he
    · rw [he]; exact h.1
    · rw [he]

theorem dirsAt_mono (fs fs' : FS) (ab : Bool)
    (hm : ∀ q, fsFind fs q = some Node.dir → fsFind fs' q = some Node.dir) :
    ∀ (rest acc : List String), dirsAt fs ab acc rest = true →
      dirsAt fs' ab acc rest = true := by
  intro rest
  induction rest with
  | nil => intro acc _; rfl
  | cons c rest ih =>
    intro acc h
    simp only [dirsAt, Bool.and_eq_true, decide_eq_true_eq] at h ⊢
    exact ⟨hm _ h.1, ih _ h.2⟩

theorem makedirsAux_clean (ab : Bool) :
    ∀ (rest : List String) (fs : FS) (acc : List String),
      prefixesClean fs ab acc rest = true →
      ∃ fs', makedirsAux fs ab acc rest = Res.ok fs' ∧
        dirsAt fs' ab acc rest = true ∧
        (∀ q, fsFind fs' q = fsFind fs q ∨
          (fsFind fs q = none ∧ fsFind fs' q = some Node.dir)) ∧
        (∀ q : FsPath, acc.length + rest.length < q.parts.length →
          fsFind fs' q = fsFind fs q) := by
  intro rest
  induction rest with
  | nil =>
    intro fs acc _
    exact ⟨fs, rfl, rfl, fun q => Or.inl rfl, fun q _ => rfl⟩
  | cons c rest ih =>
    intro fs acc h
    simp only [prefixesClean, Bool.and_eq_true] at h
    obtain ⟨h1, h2⟩ := h
    cases hf : fsFind fs ⟨ab, acc ++ [c]⟩ with
    | none =>
      have hmk := mkdirOk_of_none fs ⟨ab, acc ++ [c]⟩ hf
      have hmono1 : ∀ q, fsFind (setNode fs ⟨ab, acc ++ [c]⟩ Node.dir) q = fsFind fs q ∨
          fsFind (setNode fs ⟨ab, acc ++ [c]⟩ Node.dir) q = some Node.dir := by
        intro q
        rw [fsFind_setNode]
        by_cases hq : q = ⟨ab, acc ++ [c]⟩ <;> simp [hq]
      have hclean1 := prefixesClean_mono fs _ ab hmono1 rest (acc ++ [c]) h2
      obtain ⟨fs', heq, hdirs, hmono, hhigh⟩ := ih _ (acc ++ [c]) hclean1
      refine ⟨fs', ?_, ?_, ?_, ?_⟩
      · simp only [makedirsAux, hmk]
        exact heq
      · simp only [dirsAt, Bool.and_eq_true, decide_eq_true_eq]
        refine ⟨?_, hdirs⟩
        rcases hmono ⟨ab, acc ++ [c]⟩ with he | ⟨he1, he2⟩
        · rw [he, fsFind_setNode]; simp
        · exact he2
      · intro q
        have hq1 : fsFind (setNode fs ⟨ab, acc ++ [c]⟩ Node.dir) q =
            if q = ⟨ab, acc ++ [c]⟩ then some Node.dir else fsFind fs q :=
          fsFind_setNode fs _ _ q
        by_cases hq : q = ⟨ab, acc ++ [c]⟩
        · rw [if_pos hq] at hq1
          rcases hmono q with he | ⟨he1, he2⟩
          · right; exact ⟨hq ▸ hf, he.trans hq1⟩
          · rw [hq1] at he1; exact absurd he1 (by simp)
        · rw [if_neg hq] at hq1
          rcases hmono q with he | ⟨he1, he2⟩
          · left; exact he.trans hq1
          · right; exact ⟨hq1 ▸ he1, he2⟩
      · intro q hlen
        simp only [List.length_cons] at hlen
        have h1 := hhigh q (by simp only [List.length_append, List.length_cons, List.length_nil]; omega)
        rw [h1, fsFind_setNode, if_neg ?_]
        intro hq
        subst hq
        simp only [List.length_append, List.length_cons, List.length_nil] at hlen
        omega
    | some n =>
      cases n with
      | dir =>
        have hmk := mkdirOk_of_dir fs _ hf
        obtain ⟨fs', heq, hdirs, hmono, hhigh⟩ := ih fs (acc ++ [c]) h2
        refine ⟨fs', ?_, ?_, hmono, ?_⟩
        · simp only [makedirsAux, hmk]
          exact heq
        · simp only [dirsAt, Bool.and_eq_true, decide_eq_true_eq]
          refine ⟨?_, hdirs⟩
          rcases hmono ⟨ab, acc ++ [c]⟩ with he | ⟨he1, he2⟩
          · rw [he]; exact hf
          · exact he2
        · intro q hlen
          refine hhigh q ?_
          simp only [List.length_append, List.length_cons, List.length_nil] at hlen ⊢
          omega
      | file c0 => rw [hf] at h1; exact absurd h1 (by simp)
      | link t => rw [hf] at h1; exact absurd h1 (by simp)

theorem makedirsAux_noop (ab : Bool) :
    ∀ (rest : List String) (fs : FS) (acc : List String),
      dirsAt fs ab acc rest = true → makedirsAux fs ab acc rest = Res.ok fs := by
  intro rest
  induction rest with
  | nil => intro fs acc _; rfl
  | cons c rest ih =>
    intro fs acc h
    simp only [dirsAt, Bool.and_eq_true, decide_eq_true_eq] at h
    simp only [makedirsAux, mkdirOk_of_dir fs _ h.1]
    exact ih fs (acc ++ [c]) h.2

theorem makedirs_clean (fs : FS) (p : FsPath)
    (h : prefixesClean fs p.absolute [] p.parts = true) :
    ∃ fs', makedirs fs p = Res.ok fs' ∧
      dirsAt fs' p.absolute [] p.parts = true ∧
      (∀ q, fsFind fs' q = fsFind fs q ∨
        (fsFind fs q = none ∧ fsFind fs' q = some Node.dir)) ∧
      (∀ q : FsPath, p.parts.length < q.parts.length → fsFind fs' q = fsFind fs q) := by
  have := makedirsAux_clean p.absolute p.parts fs [] h
  simpa [makedirs] using this

theorem makedirs_noop (fs : FS) (p : FsPath)
    (h : dirsAt fs p.absolute [] p.parts = true) : makedirs fs p = Res.ok fs :=
  makedirsAux_noop p.absolute p.parts fs [] h

theorem dirsAt_full (ab : Bool) :
    ∀ (l : List String) (fs : FS) (acc : List String), dirsAt fs ab acc l = true →
      l ≠ [] → fsFind fs ⟨ab, acc ++ l⟩ = some Node.dir := by
  intro l
  induction l with
  | nil => intro fs acc _ h; exact absurd rfl h
  | cons c rest ih =>
    intro fs acc h _
    simp only [dirsAt, Bool.and_eq_true, decide_eq_true_eq] at h
    by_cases hr : rest = []
    · subst hr; exact h.1
    · have := ih fs (acc ++ [c]) h.2 hr
      rwa [List.append_assoc, List.singleton_append] at this

theorem writeFile_plain (fs : FS) (p : FsPath) (content : String)
    (hp : fsFind fs p = none ∨ ∃ c0, fsFind fs p = some (Node.file c0))
    (hpar : fsFind fs (parentPath p) = some Node.dir) :
    writeFile fs p content = Res.ok (setNode fs p (Node.file content)) := by
  have hres : resolveLink fs 40 p = some p := by
    rw [forty_succ]
    rcases hp with h | ⟨c0, h⟩ <;> simp [resolveLink, h]
  have hpd : resolveNode fs 40 (parentPath p) = some Node.dir :=
    resolveNode_of_dir fs 39 _ hpar
  rcases hp with h | ⟨c0, h⟩ <;> simp only [writeFile, hres, h, hpd]

theorem writeFile_err_state (fs : FS) (p : FsPath) (c e : String) (fs' : FS)
    (h : writeFile fs p c = Res.err e fs') : fs' = fs := by
  unfold writeFile at h
  split at h
  · injection h with _ h2; exact h2.symm
  · split at h
    · injection h with _ h2; exact h2.symm
    · split at h
      · exact Res.noConfusion h
      · injection h with _ h2; exact h2.symm

theorem writeFile_dir_pres (fs : FS) (p : FsPath) (c : String) (q : FsPath)
    (h : fsFind fs q = some Node.dir) :
    fsFind (writeFile fs p c).state q = some Node.dir := by
  unfold writeFile
  cases hr : resolveLink fs 40 p with
  | none => simpa [Res.state] using h
  | some r =>
    have hne : fsFind fs r ≠ some Node.dir → q ≠ r := by
      intro hd he
      exact hd (he ▸ h)
    cases hf : fsFind fs r with
    | none =>
      cases hpar : resolveNode fs 40 (parentPath r) with
      | none => simpa [Res.state, hf, hpar] using h
      | some n =>
        cases n with
        | dir =>
          simp only [hf, hpar, Res.state, fsFind_setNode,
            if_neg (hne (by simp [hf]))]
          exact h
        | file c0 => simpa [Res.state, hf, hpar] using h
        | link t => simpa [Res.state, hf, hpar] using h
    | some n =>
      cases n with
      | dir => simpa [Res.state, hf] using h
      | file c0 =>
        cases hpar : resolveNode fs 40 (parentPath r) with
        | none => simpa [Res.state, hf, hpar] using h
        | some m =>
          cases m with
          | dir =>
            simp only [hf, hpar, Res.state, fsFind_setNode,
              if_neg (hne (by simp [hf]))]
            exact h
          | file c1 => simpa [Res.state, hf, hpar] using h
          | link t => simpa [Res.state, hf, hpar] using h
      | link t =>
        cases hpar : resolveNode fs 40 (parentPath r) with
        | none => simpa [Res.state, hf, hpar] using h
        | some m =>
          cases m with
          | dir =>
            simp only [hf, hpar, Res.state, fsFind_setNode,
              if_neg (hne (by simp [hf]))]
            exact h
          | file c1 => simpa [Res.state, hf, hpar] using h
          | link u => simpa [Res.state, hf, hpar] using h

theorem removeFile_of_link (fs : FS) (p t : FsPath)
    (h : fsFind fs p = some (Node.link t)) :
    removeFile fs p = Res.ok (removeNode fs p) := by
  simp only [removeFile, h]

theorem removeFile_err_state (fs : FS) (p : FsPath) (e : String) (fs' : FS)
    (h : removeFile fs p = Res.err e fs') : fs' = fs := by
  unfold removeFile at h
  split at h
  · injection h with _ h2; exact h2.symm
  · injection h with _ h2; exact h2.symm
  · exact Res.noConfusion h

theorem removeFile_ok_state (fs : FS) (p : FsPath) (fs' : FS)
    (h : removeFile fs p = Res.ok fs') : fs' = removeNode fs p := by
  unfold removeFile at h
  split at h
  · exact Res.noConfusion h
  · exact Res.noConfusion h
  · injection h with h1; exact h1.symm

theorem removeFile_dir_pres (fs : FS) (p q : FsPath)
    (h : fsFind fs q = some Node.dir) :
    fsFind (removeFile fs p).state q = some Node.dir := by
  unfold removeFile
  cases hf : fsFind fs p with
  | none => simpa [Res.state] using h
  | some n =>
    cases n with
    | dir => simpa [Res.state] using h
    | file c0 =>
      have hq : q ≠ p := fun he => by rw [he, hf] at h; exact Node.noConfusion (Option.some.inj h)
      simp only [Res.state]
      rw [fsFind_removeNode_ne fs p q hq]
      exact h
    | link t =>
      have hq : q ≠ p := fun he => by rw [he, hf] at h; exact Node.noConfusion (Option.some.inj h)
      simp only [Res.state]
      rw [fsFind_removeNode_ne fs p q hq]
      exact h

theorem symlinkOp_of_none (fs : FS) (target p : FsPath) (h : fsFind fs p = none)
    (hpar : fsFind fs (parentPath p) = some Node.dir) :
    symlinkOp fs target p = Res.ok (setNode fs p (Node.link target)) := by
  have hpd : resolveNode fs 40 (parentPath p) = some Node.dir :=
    resolveNode_of_dir fs 39 _ hpar
  simp only [symlinkOp, h, hpd]

theorem symlinkOp_err_state (fs : FS) (t p : FsPath) (e : String) (fs' : FS)
    (h : symlinkOp fs t p = Res.err e fs') : fs' = fs := by
  unfold symlinkOp at h
  split at h
  · injection h with _ h2; exact h2.symm
  · split at h
    · exact Res.noConfusion h
    · injection h with _ h2; exact h2.symm

theorem symlinkOp_ok_state (fs : FS) (t p : FsPath) (fs' : FS)
    (h : symlinkOp fs t p = Res.ok fs') :
    fs' = setNode fs p (Node.link t) ∧ fsFind fs p = none := by
  unfold symlinkOp at h
  split at h
  · exact Res.noConfusion h
  · split at h
    · rename_i hfind _ _
      injection h with h1
      exact ⟨h1.symm, hfind⟩
    · exact Res.noConfusion h

theorem symlinkOp_dir_pres (fs : FS) (t p q : FsPath)
    (h : fsFind fs q = some Node.dir) :
    fsFind (symlinkOp fs t p).state q = some Node.dir := by
  unfold symlinkOp
  cases hf : fsFind fs p with
  | some n => simpa [Res.state] using h
  | none =>
    have hq : q ≠ p := fun he => by rw [he, hf] at h; exact Option.noConfusion h
    cases hpar : resolveNode fs 40 (parentPath p) with
    | none => simpa [Res.state] using h
    | some m =>
      cases m with
      | dir =>
        simp only [Res.state, fsFind_setNode, if_neg hq]
        exact h
      | file c0 => simpa [Res.state] using h
      | link u => simpa [Res.state] using h

theorem pathExists_of_none (fs : FS) (p : FsPath) (h : fsFind fs p = none) :
    pathExists fs p = false := by
  have : resolveNode fs 40 p = none := resolveNode_of_none fs 39 p h
  simp [pathExists, this]

theorem pathExists_link_file (fs : FS) (p t : FsPath) (c0 : String)
    (h : fsFind fs p = some (Node.link t)) (h2 : fsFind fs t = some (Node.file c0)) :
    pathExists fs p = true := by
  have e1 : resolveNode fs 40 p = resolveNode fs 39 t := resolveNode_of_link fs 39 p t h
  have e2 : resolveNode fs 39 t = some (Node.file c0) := resolveNode_of_file fs 38 t c0 h2
  simp [pathExists, e1, e2]

theorem parts_length_ne {p q : FsPath} (h : p.parts.length ≠ q.parts.length) : p ≠ q :=
  fun he => h (he ▸ rfl)

theorem configPath_ne_symlinkPath (base : FsPath) (f : String) :
    configPath base f ≠ symlinkPath base f := by
  intro h
  simp only [configPath, symlinkPath, availablePath, enabledPath, FsPath.mk.injEq,
    List.append_assoc] at h
  have h2 := List.append_cancel_left h.2
  simp at h2

theorem availablePath_ne_configPath (base : FsPath) (f : String) :
    availablePath base ≠ configPath base f := by
  refine parts_length_ne ?_
  simp [availablePath, configPath]

theorem availablePath_ne_symlinkPath (base : FsPath) (f : String) :
    availablePath base ≠ symlinkPath base f := by
  refine parts_length_ne ?_
  simp [availablePath, symlinkPath, enabledPath]

theorem enabledPath_ne_configPath (base : FsPath) (f : String) :
    enabledPath base ≠ configPath base f := by
  refine parts_length_ne ?_
  simp [enabledPath, configPath, availablePath]

theorem enabledPath_ne_symlinkPath (base : FsPath) (f : String) :
    enabledPath base ≠ symlinkPath base f := by
  refine parts_length_ne ?_
  simp [enabledPath, symlinkPath]

theorem parentPath_configPath (base : FsPath) (f : String) :
    parentPath (configPath base f) = availablePath base := by
  simp [parentPath, configPath, availablePath]

theorem parentPath_symlinkPath (base : FsPath) (f : String) :
    parentPath (symlinkPath base f) = enabledPath base := by
  simp [parentPath, symlinkPath, enabledPath]

theorem availableParts_ne_nil (base : FsPath) : (availablePath base).parts ≠ [] := by
  simp [availablePath]

theorem enabledParts_ne_nil (base : FsPath) : (enabledPath base).parts ≠ [] := by
  simp [enabledPath]

/-! ## Lemmas about the write, remove and symlink steps -/

theorem pathExists_of_dir (fs : FS) (p : FsPath) (h : fsFind fs p = some Node.dir) :
    pathExists fs p = true := by
  have := resolveNode_of_dir fs 39 p h
  simp [pathExists, this]

theorem pathExists_of_file (fs : FS) (p : FsPath) (c0 : String)
    (h : fsFind fs p = some (Node.file c0)) : pathExists fs p = true := by
  have := resolveNode_of_file fs 39 p c0 h
  simp [pathExists, this]

/-! ## C2, C3, C8: save_config -/

/-- Master lemma about one run of save_config from a state whose relevant
path prefixes are clean: afterwards both directory chains exist, and if the
run reported success then the enabled path holds a symlink to the config
path, which (when it started as a plain file slot) holds the new content. -/
theorem save_config_run (content filename : String) (base : FsPath) (fs : FS)
    (hA : prefixesClean fs base.absolute [] (availablePath base).parts = true)
    (hE : prefixesClean fs base.absolute [] (enabledPath base).parts = true) :
    dirsAt (save_config content filename base fs).2 base.absolute []
      (availablePath base).parts = true ∧
    dirsAt (save_config content filename base fs).2 base.absolute []
      (enabledPath base).parts = true ∧
    ((save_config content filename base fs).1.1 = true →
      fsFind (save_config content filename base fs).2 (symlinkPath base filename) =
        some (Node.link (configPath base filename)) ∧
      ((fsFind fs (configPath base filename) = none ∨
          ∃ c0, fsFind fs (configPath base filename) = some (Node.file c0)) →
        fsFind (save_config content filename base fs).2 (configPath base filename) =
          some (Node.file content))) := by
  obtain ⟨fs1, hmk1, hd1A, hmono1, hhigh1⟩ := makedirs_clean fs (availablePath base) hA
  have hE1 : prefixesClean fs1 base.absolute [] (enabledPath base).parts = true := by
    refine prefixesClean_mono fs fs1 base.absolute ?_ _ _ hE
    intro q
    rcases hmono1 q with he | ⟨he1, he2⟩
    · exact Or.inl he
    · exact Or.inr he2
  obtain ⟨fs2, hmk2, hd2E, hmono2, hhigh2⟩ := makedirs_clean fs1 (enabledPath base) hE1
  have hd2A : dirsAt fs2 base.absolute [] (availablePath base).parts = true := by
    refine dirsAt_mono fs1 fs2 base.absolute ?_ _ _ hd1A
    intro q hq
    rcases hmono2 q with he | ⟨he1, he2⟩
    · rw [he]; exact hq
    · exact he2
  have hlen1 : (availablePath base).parts.length < (configPath base filename).parts.length := by
    simp only [availablePath, configPath, List.length_append, List.length_cons,
      List.length_nil]
    omega
  have hlen2 : (enabledPath base).parts.length < (configPath base filename).parts.length := by
    simp only [availablePath, enabledPath, configPath, List.length_append, List.length_cons,
      List.length_nil]
    omega
  have hcp2 : fsFind fs2 (configPath base filename) = fsFind fs (configPath base filename) := by
    rw [hhigh2 _ hlen2, hhigh1 _ hlen1]
  have hfullA : fsFind fs2 (availablePath base) = some Node.dir := by
    have := dirsAt_full base.absolute (availablePath base).parts fs2 [] hd2A
      (availableParts_ne_nil base)
    exact this
  cases hw : writeFile fs2 (configPath base filename) content with
  | err e fs3 =>
    have h3 : fs3 = fs2 := writeFile_err_state _ _ _ _ _ hw
    subst h3
    have hres : save_config content filename base fs = ((false, e), fs3) := by
      simp only [save_config, hmk1, hmk2, hw]
    rw [hres]
    exact ⟨hd2A, hd2E, fun hx => Bool.noConfusion hx⟩
  | ok fs3 =>
    have hpres3 : ∀ q, fsFind fs2 q = some Node.dir → fsFind fs3 q = some Node.dir := by
      intro q hq
      have hh := writeFile_dir_pres fs2 (configPath base filename) content q hq
      rw [hw] at hh
      exact hh
    have hd3A := dirsAt_mono fs2 fs3 base.absolute hpres3 _ _ hd2A
    have hd3E := dirsAt_mono fs2 fs3 base.absolute hpres3 _ _ hd2E
    have hw3 : (fsFind fs (configPath base filename) = none ∨
        ∃ c0, fsFind fs (configPath base filename) = some (Node.file c0)) →
        fs3 = setNode fs2 (configPath base filename) (Node.file content) := by
      intro hc
      have hc2 : fsFind fs2 (configPath base filename) = none ∨
          ∃ c0, fsFind fs2 (configPath base filename) = some (Node.file c0) := by
        rw [hcp2]; exact hc
      have hpar : fsFind fs2 (parentPath (configPath base filename)) = some Node.dir := by
        rw [parentPath_configPath]; exact hfullA
      have hpl := writeFile_plain fs2 (configPath base filename) content hc2 hpar
      rw [hw] at hpl
      injection hpl with h5
    have hfullE3 : fsFind fs3 (enabledPath base) = some Node.dir := by
      have := dirsAt_full base.absolute (enabledPath base).parts fs3 [] hd3E
        (enabledParts_ne_nil base)
      exact this
    have hfinal3cp : (fsFind fs (configPath base filename) = none ∨
        ∃ c0, fsFind fs (configPath base filename) = some (Node.file c0)) →
        fsFind fs3 (configPath base filename) = some (Node.file content) := by
      intro hc
      rw [hw3 hc, fsFind_setNode, if_pos rfl]
    cases hsp3 : fsFind fs3 (symlinkPath base filename) with
    | none =>
      have hex : pathExists fs3 (symlinkPath base filename) = false :=
        pathExists_of_none _ _ hsp3
      have hpar : fsFind fs3 (parentPath (symlinkPath base filename)) = some Node.dir := by
        rw [parentPath_symlinkPath]; exact hfullE3
      have hsl := symlinkOp_of_none fs3 (configPath base filename)
        (symlinkPath base filename) hsp3 hpar
      have hres : save_config content filename base fs =
          ((true, pathStr (configPath base filename)),
            setNode fs3 (symlinkPath base filename)
              (Node.link (configPath base filename))) := by
        simp [save_config, hmk1, hmk2, hw, hex, hsl]
      rw [hres]
      have hpres5 : ∀ q, fsFind fs3 q = some Node.dir →
          fsFind (setNode fs3 (symlinkPath base filename)
            (Node.link (configPath base filename))) q = some Node.dir := by
        intro q hq
        rw [fsFind_setNode, if_neg (fun he => by rw [he, hsp3] at hq; cases hq)]
        exact hq
      refine ⟨dirsAt_mono fs3 _ base.absolute hpres5 _ _ hd3A,
        dirsAt_mono fs3 _ base.absolute hpres5 _ _ hd3E, fun _ => ⟨?_, ?_⟩⟩
      · rw [fsFind_setNode, if_pos rfl]
      · intro hc
        rw [fsFind_setNode, if_neg (configPath_ne_symlinkPath base filename)]
        exact hfinal3cp hc
    | some n =>
      cases n with
      | dir =>
        have hex : pathExists fs3 (symlinkPath base filename) = true :=
          pathExists_of_dir _ _ hsp3
        have hrm : removeFile fs3 (symlinkPath base filename) =
            Res.err "IsADirectoryError" fs3 := by
          simp only [removeFile, hsp3]
        have hres : save_config content filename base fs =
            ((false, "IsADirectoryError"), fs3) := by
          simp [save_config, hmk1, hmk2, hw, hex, hrm]
        rw [hres]
        exact ⟨hd3A, hd3E, fun hx => Bool.noConfusion hx⟩
      | file c0 =>
        have hex : pathExists fs3 (symlinkPath base filename) = true :=
          pathExists_of_file _ _ c0 hsp3
        have hrm : removeFile fs3 (symlinkPath base filename) =
            Res.ok (removeNode fs3 (symlinkPath base filename)) := by
          simp only [removeFile, hsp3]
        have hsp4 : fsFind (removeNode fs3 (symlinkPath base filename))
            (symlinkPath base filename) = none := fsFind_removeNode_self _ _
        have hpar4 : fsFind (removeNode fs3 (symlinkPath base filename))
            (parentPath (symlinkPath base filename)) = some Node.dir := by
          rw [parentPath_symlinkPath,
            fsFind_removeNode_ne _ _ _ (enabledPath_ne_symlinkPath base filename)]
          exact hfullE3
        have hsl := symlinkOp_of_none (removeNode fs3 (symlinkPath base filename))
          (configPath base filename) (symlinkPath base filename) hsp4 hpar4
        have hres : save_config content filename base fs =
            ((true, pathStr (configPath base filename)),
              setNode (removeNode fs3 (symlinkPath base filename))
                (symlinkPath base filename) (Node.link (configPath base filename))) := by
          simp [save_config, hmk1, hmk2, hw, hex, hrm, hsl]
        rw [hres]
        have hpres5 : ∀ q, fsFind fs3 q = some Node.dir →
            fsFind (setNode (removeNode fs3 (symlinkPath base filename))
              (symlinkPath base filename) (Node.link (configPath base filename))) q =
              some Node.dir := by
          intro q hq
          have hqne : q ≠ symlinkPath base filename := fun he => by
            rw [he, hsp3] at hq
            exact Node.noConfusion (Option.some.inj hq)
          rw [fsFind_setNode, if_neg hqne, fsFind_removeNode_ne _ _ _ hqne]
          exact hq
        refine ⟨dirsAt_mono fs3 _ base.absolute hpres5 _ _ hd3A,
          dirsAt_mono fs3 _ base.absolute hpres5 _ _ hd3E, fun _ => ⟨?_, ?_⟩⟩
        · rw [fsFind_setNode, if_pos rfl]
        · intro hc
          rw [fsFind_setNode, if_neg (configPath_ne_symlinkPath base filename),
            fsFind_removeNode_ne _ _ _ (configPath_ne_symlinkPath base filename)]
          exact hfinal3cp hc
      | link t =>
        cases hex : pathExists fs3 (symlinkPath base filename) with
        | false =>
          have hsl : symlinkOp fs3 (configPath base filename)
              (symlinkPath base filename) = Res.err "FileExistsError" fs3 := by
            simp only [symlinkOp, hsp3]
          have hres : save_config content filename base fs =
              ((false, "FileExistsError"), fs3) := by
            simp [save_config, hmk1, hmk2, hw, hex, hsl]
          rw [hres]
          exact ⟨hd3A, hd3E, fun hx => Bool.noConfusion hx⟩
        | true =>
          have hrm : removeFile fs3 (symlinkPath base filename) =
              Res.ok (removeNode fs3 (symlinkPath base filename)) :=
            removeFile_of_link fs3 _ t hsp3
          have hsp4 : fsFind (removeNode fs3 (symlinkPath base filename))
              (symlinkPath base filename) = none := fsFind_removeNode_self _ _
          have hpar4 : fsFind (removeNode fs3 (symlinkPath base filename))
              (parentPath (symlinkPath base filename)) = some Node.dir := by
            rw [parentPath_symlinkPath,
              fsFind_removeNode_ne _ _ _ (enabledPath_ne_symlinkPath base filename)]
            exact hfullE3
          have hsl := symlinkOp_of_none (removeNode fs3 (symlinkPath base filename))
            (configPath base filename) (symlinkPath base filename) hsp4 hpar4
          have hres : save_config content filename base fs =
              ((true, pathStr (configPath base filename)),
                setNode (removeNode fs3 (symlinkPath base filename))
                  (symlinkPath base filename) (Node.link (configPath base filename))) := by
            simp [save_config, hmk1, hmk2, hw, hex, hrm, hsl]
          rw [hres]
          have hpres5 : ∀ q, fsFind fs3 q = some Node.dir →
              fsFind (setNode (removeNode fs3 (symlinkPath base filename))
                (symlinkPath base filename) (Node.link (configPath base filename))) q =
                some Node.dir := by
            intro q hq
            have hqne : q ≠ symlinkPath base filename := fun he => by
              rw [he, hsp3] at hq
              exact Node.noConfusion (Option.some.inj hq)
            rw [fsFind_setNode, if_neg hqne, fsFind_removeNode_ne _ _ _ hqne]
            exact hq
          refine ⟨dirsAt_mono fs3 _ base.absolute hpres5 _ _ hd3A,
            dirsAt_mono fs3 _ base.absolute hpres5 _ _ hd3E, fun _ => ⟨?_, ?_⟩⟩
          · rw [fsFind_setNode, if_pos rfl]
          · intro hc
            rw [fsFind_setNode, if_neg (configPath_ne_symlinkPath base filename),
              fsFind_removeNode_ne _ _ _ (configPath_ne_symlinkPath base filename)]
            exact hfinal3cp hc

/-- From a state where both directory chains exist, the config path holds a
plain file and the enabled path holds a symlink to it (exactly the state a
successful save_config leaves behind), another save_config run succeeds,
rewrites the file and recreates the symlink. -/
theorem save_config_good (content filename : String) (base : FsPath) (fs : FS)
    (hdA : dirsAt fs base.absolute [] (availablePath base).parts = true)
    (hdE : dirsAt fs base.absolute [] (enabledPath base).parts = true)
    (hcp : ∃ c0, fsFind fs (configPath base filename) = some (Node.file c0))
    (hsp : fsFind fs (symlinkPath base filename) =
      some (Node.link (configPath base filename))) :
    (save_config content filename base fs).1.1 = true ∧
    fsFind (save_config content filename base fs).2 (symlinkPath base filename) =
      some (Node.link (configPath base filename)) ∧
    fsFind (save_config content filename base fs).2 (configPath base filename) =
      some (Node.file content) := by
  have hmk1 : makedirs fs (availablePath base) = Res.ok fs := makedirs_noop fs _ hdA
  have hmk2 : makedirs fs (enabledPath base) = Res.ok fs := makedirs_noop fs _ hdE
  have hfullA : fsFind fs (availablePath base) = some Node.dir :=
    dirsAt_full base.absolute _ fs [] hdA (availableParts_ne_nil base)
  have hfullE : fsFind fs (enabledPath base) = some Node.dir :=
    dirsAt_full base.absolute _ fs [] hdE (enabledParts_ne_nil base)
  have hw : writeFile fs (configPath base filename) content =
      Res.ok (setNode fs (configPath base filename) (Node.file content)) := by
    refine writeFile_plain fs _ content (Or.inr hcp) ?_
    rw [parentPath_configPath]
    exact hfullA
  have hsp3 : fsFind (setNode fs (configPath base filename) (Node.file content))
      (symlinkPath base filename) = some (Node.link (configPath base filename)) := by
    rw [fsFind_setNode, if_neg (configPath_ne_symlinkPath base filename).symm]
    exact hsp
  have hcp3 : fsFind (setNode fs (configPath base filename) (Node.file content))
      (configPath base filename) = some (Node.file content) := by
    rw [fsFind_setNode, if_pos rfl]
  have hex : pathExists (setNode fs (configPath base filename) (Node.file content))
      (symlinkPath base filename) = true :=
    pathExists_link_file _ _ _ content hsp3 hcp3
  have hrm : removeFile (setNode fs (configPath base filename) (Node.file content))
      (symlinkPath base filename) =
      Res.ok (removeNode (setNode fs (configPath base filename) (Node.file content))
        (symlinkPath base filename)) :=
    removeFile_of_link _ _ _ hsp3
  have hsp4 : fsFind (removeNode (setNode fs (configPath base filename) (Node.file content))
      (symlinkPath base filename)) (symlinkPath base filename) = none :=
    fsFind_removeNode_self _ _
  have hpar4 : fsFind (removeNode (setNode fs (configPath base filename) (Node.file content))
      (symlinkPath base filename)) (parentPath (symlinkPath base filename)) =
      some Node.dir := by
    rw [parentPath_symlinkPath,
      fsFind_removeNode_ne _ _ _ (enabledPath_ne_symlinkPath base filename),
      fsFind_setNode, if_neg (enabledPath_ne_configPath base filename)]
    exact hfullE
  have hsl := symlinkOp_of_none _ (configPath base filename) (symlinkPath base filename)
    hsp4 hpar4
  have hres : save_config content filename base fs =
      ((true, pathStr (configPath base filename)),
        setNode (removeNode (setNode fs (configPath base filename) (Node.file content))
          (symlinkPath base filename)) (symlinkPath base filename)
          (Node.link (configPath base filename))) := by
    simp [save_config, hmk1, hmk2, hw, hex, hrm, hsl]
  rw [hres]
  refine ⟨rfl, ?_, ?_⟩
  · rw [fsFind_setNode, if_pos rfl]
  · rw [fsFind_setNode, if_neg (configPath_ne_symlinkPath base filename),
      fsFind_removeNode_ne _ _ _ (configPath_ne_symlinkPath base filename), hcp3]

/-- C8: from a state whose relevant prefixes are clean (in particular from a
base directory where neither subdirectory exists), install leaves both the
sites-available and sites-enabled directory chains in place whatever else
happens; and when the directory chains already exist the directory-creation
steps are failure-free no-ops. -/
theorem c8_install_dirs (content filename : String) (base : FsPath) (fs : FS)
    (hA : prefixesClean fs base.absolute [] (availablePath base).parts = true)
    (hE : prefixesClean fs base.absolute [] (enabledPath base).parts = true) :
    (dirsAt (save_config content filename base fs).2 base.absolute []
        (availablePath base).parts = true ∧
      dirsAt (save_config content filename base fs).2 base.absolute []
        (enabledPath base).parts = true) ∧
    (∀ fs0 : FS, dirsAt fs0 base.absolute [] (availablePath base).parts = true →
      dirsAt fs0 base.absolute [] (enabledPath base).parts = true →
      makedirs fs0 (availablePath base) = Res.ok fs0 ∧
      makedirs fs0 (enabledPath base) = Res.ok fs0) := by
  obtain ⟨h1, h2, _⟩ := save_config_run content filename base fs hA hE
  exact ⟨⟨h1, h2⟩, fun fs0 hd1 hd2 =>
    ⟨makedirs_noop fs0 _ hd1, makedirs_noop fs0 _ hd2⟩⟩

/-- C8 witness: a fresh empty filesystem and the default base directory. -/
theorem c8_install_dirs_witness :
    (dirsAt (save_config "X" "site.conf" ⟨true, ["etc", "nginx"]⟩ []).2 true []
        (availablePath ⟨true, ["etc", "nginx"]⟩).parts = true ∧
      dirsAt (save_config "X" "site.conf" ⟨true, ["etc", "nginx"]⟩ []).2 true []
        (enabledPath ⟨true, ["etc", "nginx"]⟩).parts = true) ∧
    (∀ fs0 : FS, dirsAt fs0 true [] (availablePath ⟨true, ["etc", "nginx"]⟩).parts = true →
      dirsAt fs0 true [] (enabledPath ⟨true, ["etc", "nginx"]⟩).parts = true →
      makedirs fs0 (availablePath ⟨true, ["etc", "nginx"]⟩) = Res.ok fs0 ∧
      makedirs fs0 (enabledPath ⟨true, ["etc", "nginx"]⟩) = Res.ok fs0) :=
  c8_install_dirs "X" "site.conf" ⟨true, ["etc", "nginx"]⟩ [] (by decide) (by decide)

/-- C2 (amended): when the enabled path starts empty or occupied by a
regular file or a symlink to an existing target, a successful install leaves
a symlink to the written file, and a second install with the same filename
succeeds, replaces the content and retargets the symlink with no stale link
left behind. (A dangling symlink at the enabled path instead makes install
fail, per the counterexample.) -/
theorem c2_second_install (c1 c2 filename : String) (base : FsPath) (fs : FS)
    (hA : prefixesClean fs base.absolute [] (availablePath base).parts = true)
    (hE : prefixesClean fs base.absolute [] (enabledPath base).parts = true)
    (hc : fsFind fs (configPath base filename) = none ∨
      ∃ c0, fsFind fs (configPath base filename) = some (Node.file c0))
    (h1 : (save_config c1 filename base fs).1.1 = true) :
    (save_config c2 filename base (save_config c1 filename base fs).2).1.1 = true ∧
    fsFind (save_config c2 filename base (save_config c1 filename base fs).2).2
      (symlinkPath base filename) = some (Node.link (configPath base filename)) ∧
    fsFind (save_config c2 filename base (save_config c1 filename base fs).2).2
      (configPath base filename) = some (Node.file c2) := by
  obtain ⟨hdA, hdE, hsucc⟩ := save_config_run c1 filename base fs hA hE
  obtain ⟨hlink, hfile⟩ := hsucc h1
  exact save_config_good c2 filename base _ hdA hdE ⟨c1, hfile hc⟩ hlink

/-- C2 witness: two installs of site.conf under /etc/nginx starting from an
empty filesystem. -/
theorem c2_second_install_witness :
    (save_config "NEW" "site.conf" ⟨true, ["etc", "nginx"]⟩
      (save_config "OLD" "site.conf" ⟨true, ["etc", "nginx"]⟩ []).2).1.1 = true ∧
    fsFind (save_config "NEW" "site.conf" ⟨true, ["etc", "nginx"]⟩
        (save_config "OLD" "site.conf" ⟨true, ["etc", "nginx"]⟩ []).2).2
      (symlinkPath ⟨true, ["etc", "nginx"]⟩ "site.conf") =
      some (Node.link (configPath ⟨true, ["etc", "nginx"]⟩ "site.conf")) ∧
    fsFind (save_config "NEW" "site.conf" ⟨true, ["etc", "nginx"]⟩
        (save_config "OLD" "site.conf" ⟨true, ["etc", "nginx"]⟩ []).2).2
      (configPath ⟨true, ["etc", "nginx"]⟩ "site.conf") = some (Node.file "NEW") :=
  c2_second_install "OLD" "NEW" "site.conf" ⟨true, ["etc", "nginx"]⟩ []
    (by decide) (by decide) (Or.inl (by decide)) (by decide)

/-- C2 counterexample: a dangling symlink already occupies the enabled path;
os.path.exists reports false, the entry is not removed, os.symlink then
fails, so install returns failure and the stale dangling link survives —
refuting the claim for symlinks whose target does not exist. -/
theorem c2_dangling_counterexample :
    (save_config "CONTENT" "site.conf" ⟨true, ["etc", "nginx"]⟩ fsDangling).1.1 = false ∧
    fsFind (save_config "CONTENT" "site.conf" ⟨true, ["etc", "nginx"]⟩ fsDangling).2
      (symlinkPath ⟨true, ["etc", "nginx"]⟩ "site.conf") =
      some (Node.link ⟨true, ["nowhere"]⟩) := by
  decide

/-- C3 (amended): whenever save_config succeeds, the created symlink stores
exactly the joined path base/sites-available/filename — not its
absolutization — and when the base path is absolute that joined path is the
absolute path of the written file. -/
theorem c3_symlink_target (content filename : String) (base : FsPath) (fs : FS)
    (cwd : List String) (h : (save_config content filename base fs).1.1 = true) :
    fsFind (save_config content filename base fs).2 (symlinkPath base filename) =
      some (Node.link (configPath base filename)) ∧
    (base.absolute = true →
      absPath cwd (configPath base filename) = configPath base filename) := by
  constructor
  · cases hmk1 : makedirs fs (availablePath base) with
    | err e fs1 =>
      have hff : (save_config content filename base fs).1.1 = false := by
        simp [save_config, hmk1]
      rw [hff] at h
      exact Bool.noConfusion h
    | ok fs1 =>
      cases hmk2 : makedirs fs1 (enabledPath base) with
      | err e fs2 =>
        have hff : (save_config content filename base fs).1.1 = false := by
          simp [save_config, hmk1, hmk2]
        rw [hff] at h
        exact Bool.noConfusion h
      | ok fs2 =>
        cases hw : writeFile fs2 (configPath base filename) content with
        | err e fs3 =>
          have hff : (save_config content filename base fs).1.1 = false := by
            simp [save_config, hmk1, hmk2, hw]
          rw [hff] at h
          exact Bool.noConfusion h
        | ok fs3 =>
          cases hex : pathExists fs3 (symlinkPath base filename) with
          | false =>
            cases hsl : symlinkOp fs3 (configPath base filename)
                (symlinkPath base filename) with
            | err e fs5 =>
              have hff : (save_config content filename base fs).1.1 = false := by
                simp [save_config, hmk1, hmk2, hw, hex, hsl]
              rw [hff] at h
              exact Bool.noConfusion h
            | ok fs5 =>
              obtain ⟨hstate, _⟩ := symlinkOp_ok_state fs3 _ _ fs5 hsl
              have hres : (save_config content filename base fs).2 = fs5 := by
                simp [save_config, hmk1, hmk2, hw, hex, hsl]
              rw [hres, hstate, fsFind_setNode, if_pos rfl]
          | true =>
            cases hrm : removeFile fs3 (symlinkPath base filename) with
            | err e fs4 =>
              have hff : (save_config content filename base fs).1.1 = false := by
                simp [save_config, hmk1, hmk2, hw, hex, hrm]
              rw [hff] at h
              exact Bool.noConfusion h
            | ok fs4 =>
              cases hsl : symlinkOp fs4 (configPath base filename)
                  (symlinkPath base filename) with
              | err e fs5 =>
                have hff : (save_config content filename base fs).1.1 = false := by
                  simp [save_config, hmk1, hmk2, hw, hex, hrm, hsl]
                rw [hff] at h
                exact Bool.noConfusion h
              | ok fs5 =>
                obtain ⟨hstate, _⟩ := symlinkOp_ok_state fs4 _ _ fs5 hsl
                have hres : (save_config content filename base fs).2 = fs5 := by
                  simp [save_config, hmk1, hmk2, hw, hex, hrm, hsl]
                rw [hres, hstate, fsFind_setNode, if_pos rfl]
  · intro hb
    simp [absPath, configPath, availablePath, hb]

/-- C3 witness: a successful install under the absolute default base
directory, whose symlink stores the (absolute) config path. -/
theorem c3_symlink_target_witness :
    fsFind (save_config "X" "site.conf" ⟨true, ["etc", "nginx"]⟩ []).2
      (symlinkPath ⟨true, ["etc", "nginx"]⟩ "site.conf") =
      some (Node.link (configPath ⟨true, ["etc", "nginx"]⟩ "site.conf")) ∧
    ((⟨true, ["etc", "nginx"]⟩ : FsPath).absolute = true →
      absPath ["home", "user"] (configPath ⟨true, ["etc", "nginx"]⟩ "site.conf") =
        configPath ⟨true, ["etc", "nginx"]⟩ "site.conf") :=
  c3_symlink_target "X" "site.conf" ⟨true, ["etc", "nginx"]⟩ [] ["home", "user"] (by decide)

/-- C3 counterexample: with the relative base path nginx the install
succeeds but the symlink stores the relative joined path, which is not the
absolute path of the written file (absolutization against any working
directory changes it), refuting the claim for relative base paths. -/
theorem c3_relative_counterexample :
    fsFind (save_config "CONTENT" "site.conf" ⟨false, ["nginx"]⟩ []).2
        (symlinkPath ⟨false, ["nginx"]⟩ "site.conf") =
      some (Node.link ⟨false, ["nginx", "sites-available", "site.conf"]⟩) ∧
    absPath ["home", "user"] ⟨false, ["nginx", "sites-available", "site.conf"]⟩ ≠
      ⟨false, ["nginx", "sites-available", "site.conf"]⟩ := by
  decide

/-! ## C4, C7, C10: the process invoker -/

/-- C4: whenever the nginx -t test command reports failure, the invocation
trace of test_and_reload_nginx is exactly the test command: the reload
command is never handed to run_command, and failure is reported. -/
theorem c4_test_gates_reload (proc : List String → ProcResult)
    (h : (run_command proc "nginx -t").1 = false) :
    (test_and_reload_nginx proc).2 = ["nginx -t"] ∧
    "systemctl reload nginx" ∉ (test_and_reload_nginx proc).2 ∧
    (test_and_reload_nginx proc).1.1 = false := by
  have ht : test_and_reload_nginx proc =
      ((false, "Nginx configuration test failed:\n" ++ (run_command proc "nginx -t").2),
        ["nginx -t"]) := by
    simp [test_and_reload_nginx, h]
  rw [ht]
  refine ⟨rfl, ?_, rfl⟩
  show "systemctl reload nginx" ∉ ["nginx -t"]
  decide

/-- C4 witness: an oracle on which every command exits 1. -/
theorem c4_test_gates_reload_witness :
    (test_and_reload_nginx procFailTest).2 = ["nginx -t"] ∧
    "systemctl reload nginx" ∉ (test_and_reload_nginx procFailTest).2 ∧
    (test_and_reload_nginx procFailTest).1.1 = false :=
  c4_test_gates_reload procFailTest (by decide)

/-- C7: for a command whose whitespace split is nonempty, run_command hands
exactly that argument vector to the process launcher and maps the outcome:
exit 0 to (true, stdout), non-zero exit to (false, stderr), inability to
launch to (false, the exception description). -/
theorem c7_run_command_cases (proc : List String → ProcResult) (command : String)
    (hnz : pySplit command ≠ []) :
    (∀ out err, proc (pySplit command) = ProcResult.completed 0 out err →
      run_command proc command = (true, out)) ∧
    (∀ code out err, code ≠ 0 → proc (pySplit command) = ProcResult.completed code out err →
      run_command proc command = (false, err)) ∧
    (∀ msg, proc (pySplit command) = ProcResult.launchFailure msg →
      run_command proc command = (false, msg)) := by
  refine ⟨fun out err hp => ?_, fun code out err hc hp => ?_, fun msg hp => ?_⟩
  · simp [run_command, hnz, hp]
  · simp [run_command, hnz, hp, hc]
  · simp [run_command, hnz, hp]

/-- C7 witness: the nginx -t command against an all-succeeding oracle. -/
theorem c7_run_command_cases_witness :
    (∀ out err, procOkAll (pySplit "nginx -t") = ProcResult.completed 0 out err →
      run_command procOkAll "nginx -t" = (true, out)) ∧
    (∀ code out err, code ≠ 0 →
      procOkAll (pySplit "nginx -t") = ProcResult.completed code out err →
      run_command procOkAll "nginx -t" = (false, err)) ∧
    (∀ msg, procOkAll (pySplit "nginx -t") = ProcResult.launchFailure msg →
      run_command procOkAll "nginx -t" = (false, msg)) :=
  c7_run_command_cases procOkAll "nginx -t" (by decide)

theorem pySplitGo_all_ws :
    ∀ l : List Char, (∀ c ∈ l, c.isWhitespace = true) → pySplitGo [] l = [] := by
  intro l
  induction l with
  | nil => intro _; rfl
  | cons c rest ih =>
    intro h
    have hc : c.isWhitespace = true := h c (List.mem_cons_self c rest)
    simp only [pySplitGo, hc, if_true]
    exact ih fun d hd => h d (List.mem_cons_of_mem c hd)

/-- C10: on a command string consisting entirely of whitespace (the empty
string included) the split yields an empty argument vector and run_command
returns false with an error description instead of raising. -/
theorem c10_run_command_all_ws (proc : List String → ProcResult) (s : String)
    (h : ∀ c ∈ s.data, c.isWhitespace = true) :
    pySplit s = [] ∧ run_command proc s = (false, "list index out of range") := by
  have hs : pySplitGo [] s.data = [] := pySplitGo_all_ws s.data h
  constructor
  · simp [pySplit, hs]
  · simp [run_command, pySplit, hs]

/-- C10 witness: a whitespace-only command string. -/
theorem c10_run_command_all_ws_witness :
    pySplit " \t " = [] ∧
    run_command procNone " \t " = (false, "list index out of range") :=
  c10_run_command_all_ws procNone " \t " (by decide)

/-! ## C5, C9: the orchestrator -/

/-- C5: with the dry-run flag set, main prints the banner, a dashed rule and
the rendered configuration, leaves the filesystem untouched and hands no
command to a subprocess. -/
theorem c5_dry_run (args : Args) (fs : FS) (proc : List String → ProcResult)
    (h : args.dry_run = true) :
    (main args fs proc).printed =
      ["Generated configuration:", String.mk (List.replicate 50 '-'),
        create_nginx_config args.server_name args.proxy_pass] ∧
    (main args fs proc).fs = fs ∧
    (main args fs proc).invoked = [] := by
  refine ⟨?_, ?_, ?_⟩ <;> simp [main, h]

/-- C5 witness: the dry-run example from the specification. -/
theorem c5_dry_run_witness :
    (main argsDry [] procNone).printed =
      ["Generated configuration:", String.mk (List.replicate 50 '-'),
        create_nginx_config argsDry.server_name argsDry.proxy_pass] ∧
    (main argsDry [] procNone).fs = [] ∧
    (main argsDry [] procNone).invoked = [] :=
  c5_dry_run argsDry [] procNone rfl

/-- C9 (amended): every invocation whose argument parsing succeeds exits
with status 0, whatever the filesystem state and however the external
commands behave. -/
theorem c9_exit_zero (argv : List String) (args : Args) (fs : FS)
    (proc : List String → ProcResult) (h : parseArgs argv = some args) :
    (programMain argv fs proc).exitCode = 0 := by
  rcases hsv : save_config (create_nginx_config args.server_name args.proxy_pass)
    args.output args.nginx_path fs with ⟨⟨b, s⟩, fs'⟩
  rcases htr : test_and_reload_nginx proc with ⟨⟨tb, ts⟩, trace⟩
  cases hd : args.dry_run
  · cases b
    · simp [programMain, h, main, hd, hsv]
    · cases hsk : args.skip_reload
      · cases tb
        · simp [programMain, h, main, hd, hsv, hsk, htr]
        · simp [programMain, h, main, hd, hsv, hsk, htr]
      · simp [programMain, h, main, hd, hsv, hsk]
  · simp [programMain, h, main, hd]

/-- C9 witness: the parsed dry-run command line exits 0. -/
theorem c9_exit_zero_witness : (programMain argvDry [] procNone).exitCode = 0 :=
  c9_exit_zero argvDry argsDry [] procNone (by decide)

/-- C9 counterexample: invoking the program with no arguments at all makes
argparse reject the missing required options and exit with status 2, not 0 —
refuting the claim for invocations that do not parse. -/
theorem c9_no_args_counterexample :
    (programMain [] [] procNone).exitCode = 2 ∧
    ¬ (programMain [] [] procNone).exitCode = 0 := by
  decide

end NginxGen
